import Mathlib

/-!
Verification development for the Telegram booking/FAQ bot (`src/bot.py`).

Modelling conventions:
* All timestamps are minutes since a fixed epoch midnight, already normalized
  to the single configured business timezone (the code converts every datetime
  with `ensure_tz` before comparing).  A calendar date is a day index
  `d : Nat`; the datetime for `d` at `hh:mm` is `d * 1440 + hh * 60 + mm`.
* The day index epoch is 1970-01-01, so `pyWeekday d = (d + 3) % 7` matches
  Python's `date.weekday()` (Monday = 0; 1970-01-01 was a Thursday).
* The appointment store models the `appointments` table; the user list models
  the `users` table.  SQLAlchemy sessions are modelled by explicit state
  passing: a read sees the current store, a commit replaces it.
* Spanish strings are taken verbatim from the source.  `pyLower` lowercases
  the ASCII range only; the inputs exercised here are already lowercase
  outside ASCII, matching Python `str.lower()` on them.
-/

namespace ChatBot

/-- Appointment status enumeration from `database/appointments_db.py`
(`AppointmentStatus`): pending, confirmed, completed, cancelled. -/
inductive ApptStatus
  | pending
  | confirmed
  | completed
  | cancelled
deriving DecidableEq, Repr

/-- Row of the `appointments` table as used by the slot logic:
`user_id`, `appointment_date` (minutes since epoch, business timezone),
`duration_minutes`, `status`. -/
structure Appointment where
  user_id : Nat
  appointment_date : Nat
  duration_minutes : Nat
  status : ApptStatus
deriving DecidableEq, Repr

/-- Row of the `users` table as used by the booking flow: primary key `id`,
unique `telegram_id`, optional `email`. -/
structure UserRec where
  id : Nat
  telegram_id : Nat
  email : Option String
deriving DecidableEq, Repr

/-- Transient slot value (`{'start': ..., 'end': ...}` dicts built by
`daterange_slots`); `stop` stands for the Python key `end`. -/
structure Slot where
  start : Nat
  stop : Nat
deriving DecidableEq, Repr

/-- Hour component of a minute timestamp (`datetime.hour`). -/
def hourOf (t : Nat) : Nat := t % 1440 / 60

/-- Minute component of a minute timestamp (`datetime.minute`). -/
def minuteOf (t : Nat) : Nat := t % 60

/-- Python `date.weekday()` for a day index (Monday = 0). -/
def pyWeekday (d : Nat) : Nat := (d + 3) % 7

/-- Loop body of `daterange_slots`: `while cur + step <= end_dt`, with
`step = timedelta(minutes=30)`, appending `{'start': cur, 'end': cur + step}`. -/
def slotLoop (end_dt : Nat) (cur : Nat) : List Slot :=
  if h : cur + 30 ≤ end_dt then
    { start := cur, stop := cur + 30 } :: slotLoop end_dt (cur + 30)
  else
    []
termination_by end_dt - cur
decreasing_by omega

/-- Source function `daterange_slots(date_obj)` from `bot.py`: slots of a business day from
`BUSINESS_HOURS_START` to `BUSINESS_HOURS_END` (hours, here the parameters
`bs`/`be`), in 30-minute steps.  `d` is the day index of `date_obj`. -/
def daterange_slots (bs be : Nat) (d : Nat) : List Slot :=
  slotLoop (d * 1440 + be * 60) (d * 1440 + bs * 60)

/-- Day-window and status filter shared by `is_slot_available` and
`get_available_slots_from_db`: `appointment_date` between `day_start`
(midnight) and `day_end` (`dtime.max`, i.e. the last minute of the day) and
`status != AppointmentStatus.CANCELLED`. -/
def onDayNonCancelled (day : Nat) (a : Appointment) : Bool :=
  decide (day * 1440 ≤ a.appointment_date) &&
  decide (a.appointment_date ≤ day * 1440 + 1439) &&
  decide (a.status ≠ ApptStatus.cancelled)

/-- Source function `is_slot_available(start_dt, end_dt)` from `bot.py`: fetch the day's
non-cancelled appointments (day taken from `start_dt`) and report `False`
iff some of them overlaps `[start_dt, end_dt)` under the half-open test
`start_dt < a_end and end_dt > a_start`. -/
def is_slot_available (store : List Appointment) (start_dt end_dt : Nat) : Bool :=
  let day := start_dt / 1440
  let appts := store.filter (onDayNonCancelled day)
  appts.all (fun a =>
    let a_end := a.appointment_date + a.duration_minutes
    !(decide (start_dt < a_end) && decide (end_dt > a.appointment_date)))

/-- Source function `get_available_slots_from_db(date_obj)` from `bot.py`: all `daterange_slots`
of the day, keeping a slot iff it overlaps no non-cancelled appointment of
that day (same half-open test). -/
def get_available_slots_from_db (bs be : Nat) (store : List Appointment) (d : Nat) :
    List Slot :=
  let all_slots := daterange_slots bs be d
  let appts := store.filter (onDayNonCancelled d)
  all_slots.filter (fun slot =>
    !(appts.any (fun a =>
      let a_end := a.appointment_date + a.duration_minutes
      decide (slot.start < a_end) && decide (slot.stop > a.appointment_date))))

/-- Stable insertion into a start-sorted slot list (used to model Python
`list.sort(key=lambda s: s['start'])`). -/
def insertSlot (x : Slot) : List Slot → List Slot
  | [] => [x]
  | y :: ys => if x.start ≤ y.start then x :: y :: ys else y :: insertSlot x ys

/-- Sorting by slot start, modelling `slots.sort(key=lambda s: s['start'])`. -/
def sortSlots : List Slot → List Slot
  | [] => []
  | x :: xs => insertSlot x (sortSlots xs)

/-- Source function `pick_best_slot_for_datetime(target_date, hour, minute)` from `bot.py`:
exact hour/minute match first, otherwise the first slot at or after the
target (after sorting), otherwise the last slot of the day. -/
def pick_best_slot_for_datetime (bs be : Nat) (store : List Appointment)
    (d h mi : Nat) : Option Slot :=
  let slots := get_available_slots_from_db bs be store d
  if slots.isEmpty then none
  else
    let target_dt := d * 1440 + h * 60 + mi
    let exact := slots.filter (fun s =>
      decide (hourOf s.start = h) && decide (minuteOf s.start = mi))
    if !exact.isEmpty then exact.head?
    else
      let after := slots.filter (fun s => decide (target_dt ≤ s.start))
      if !after.isEmpty then (sortSlots after).head?
      else (sortSlots slots).getLast?

/-- Python `str.lower()` restricted to ASCII (the inputs exercised here are
already lowercase outside that range), implemented over the character list
so that it reduces in the kernel. -/
def pyLower (s : String) : String := String.mk (s.toList.map Char.toLower)

/-- Python `str.strip()`: drop leading and trailing whitespace. -/
def pyStrip (s : String) : String :=
  String.mk (((s.toList.dropWhile Char.isWhitespace).reverse.dropWhile
    Char.isWhitespace).reverse)

/-- Helper for substring search: does `hay` start with `needle`? -/
def leadsWith : List Char → List Char → Bool
  | _, [] => true
  | [], _ :: _ => false
  | c :: cs, d :: ds => c == d && leadsWith cs ds

/-- Helper for substring search over character lists. -/
def containsSeq : List Char → List Char → Bool
  | [], needle => needle.isEmpty
  | c :: rest, needle => leadsWith (c :: rest) needle || containsSeq rest needle

/-- Python `sub in s` (substring containment). -/
def containsSub (s sub : String) : Bool := containsSeq s.toList sub.toList

/-- Weekday table of `parse_spanish_date`, in Python dict insertion order. -/
def weekdayTable : List (String × Nat) :=
  [(("lunes"), 0), (("martes"), 1), (("miércoles"), 2), (("miercoles"), 2),
   (("jueves"), 3), (("viernes"), 4), (("sábado"), 5), (("sabado"), 5),
   (("domingo"), 6)]

/-- First weekday name of the table contained in `t`, if any (the `for name,
idx in weekdays.items()` loop of `parse_spanish_date`). -/
def findWeekday (t : String) : Option Nat :=
  (weekdayTable.find? (fun p => containsSub t p.1)).map (fun p => p.2)

/-- Source function `parse_spanish_date(text)` from `bot.py`, with `get_tznow().date()`
passed in as the day index `today`.  Checks, in order: "pasado mañana"
(+2), "mañana" (+1), "hoy" (+0), then the weekday table with
`delta = (idx - today.weekday()) % 7` replaced by 7 when it is 0. -/
def parse_spanish_date (today : Nat) (text : String) : Option Nat :=
  if text = ("") then none
  else
    let t := pyLower text
    if containsSub t ("pasado mañana") || containsSub t ("pasado manana") then
      some (today + 2)
    else if containsSub t ("mañana") || containsSub t ("manana") then
      some (today + 1)
    else if containsSub t ("hoy") then
      some today
    else
      match findWeekday t with
      | some idx =>
        let today_idx := pyWeekday today
        let delta := (idx + 7 - today_idx) % 7
        let delta2 := if delta = 0 then 7 else delta
        some (today + delta2)
      | none => none

/-- Regex word character (`\w` with the Spanish letters the inputs use;
Python treats all unicode letters as word characters). -/
def isWordChar (c : Char) : Bool :=
  c.isAlphanum || c == '_' ||
    (['á', 'é', 'í', 'ó', 'ú', 'ñ', 'ü'].contains c)

/-- Regex `\b` immediately after a word character: the rest of the input
starts with a non-word character or is empty. -/
def atBoundary : List Char → Bool
  | [] => true
  | c :: _ => !isWordChar c

/-- Regex `\b` immediately before a word character: the previous character,
if any, is not a word character. -/
def boundaryBefore : Option Char → Bool
  | none => true
  | some c => !isWordChar c

/-- Numeric value of a digit character. -/
def dval (c : Char) : Nat := c.toNat - ('0').toNat

/-- Attempt of `\b(\d{1,2}):(\d{2})\b` at the current position (the `\b`
before the position is checked by the caller).  The two-digit hour is tried
first (greedy `\d{1,2}`); the one-digit alternative can only apply when the
second character is the colon. -/
def matchHHMM (cs : List Char) : Option (Nat × Nat) :=
  match cs with
  | d1 :: rest1 =>
    if d1.isDigit then
      match rest1 with
      | d2 :: ':' :: m1 :: m2 :: rest =>
        if d2.isDigit && m1.isDigit && m2.isDigit && atBoundary rest then
          some (10 * dval d1 + dval d2, 10 * dval m1 + dval m2)
        else none
      | ':' :: m1 :: m2 :: rest =>
        if m1.isDigit && m2.isDigit && atBoundary rest then
          some (dval d1, 10 * dval m1 + dval m2)
        else none
      | _ => none
    else none
  | [] => none

/-- Scan of `re.search` for the first pattern: leftmost position whose
attempt succeeds, tracking the previous character for the leading `\b`. -/
def scanHHMM : Option Char → List Char → Option (Nat × Nat)
  | _, [] => none
  | prev, c :: rest =>
    if boundaryBefore prev then
      match matchHHMM (c :: rest) with
      | some r => some r
      | none => scanHHMM (some c) rest
    else scanHHMM (some c) rest

/-- Consume a maximal (possibly empty) whitespace run (`\s*`). -/
def skipWs0 : List Char → List Char
  | c :: rest => if c.isWhitespace then skipWs0 rest else c :: rest
  | [] => []

/-- Consume a non-empty whitespace run (`\s+`). -/
def skipWs1 : List Char → Option (List Char)
  | c :: rest => if c.isWhitespace then some (skipWs0 rest) else none
  | [] => none

/-- Greedy `(\d{1,2})\b`: two digits if the boundary after them holds
(backtracking to one digit can never succeed, the next character being a
digit), otherwise one digit with its boundary. -/
def digits12 (cs : List Char) : Option Nat :=
  match cs with
  | d1 :: rest1 =>
    if d1.isDigit then
      match rest1 with
      | d2 :: rest2 =>
        if d2.isDigit then
          if atBoundary rest2 then some (10 * dval d1 + dval d2) else none
        else if atBoundary rest1 then some (dval d1) else none
      | [] => some (dval d1)
    else none
  | [] => none

/-- Attempt of `a\s+l[ao]s?\s+(\d{1,2})\b` at the current position.  The
optional `s` is greedy; when taking it fails, the backtracked branch needs
`\s+` to match the letter `s` and so always fails too. -/
def matchALas (cs : List Char) : Option Nat :=
  match cs with
  | 'a' :: rest =>
    match skipWs1 rest with
    | some rest2 =>
      match rest2 with
      | 'l' :: x :: rest3 =>
        if x == 'a' || x == 'o' then
          match rest3 with
          | 's' :: rest4 =>
            match skipWs1 rest4 with
            | some rest5 => digits12 rest5
            | none => none
          | _ =>
            match skipWs1 rest3 with
            | some rest5 => digits12 rest5
            | none => none
        else none
      | _ => none
    | none => none
  | _ => none

/-- Scan of `re.search` for the second pattern (no leading boundary). -/
def scanALas : List Char → Option Nat
  | [] => none
  | c :: rest =>
    match matchALas (c :: rest) with
    | some r => some r
    | none => scanALas rest

/-- Attempt of the am/pm alternation with its boundary; `true` means pm. -/
def ampmTail : List Char → Option Bool
  | 'a' :: 'm' :: rest => if atBoundary rest then some false else none
  | 'p' :: 'm' :: rest => if atBoundary rest then some true else none
  | _ => none

/-- Attempt of `\b(\d{1,2})\s*(am|pm)\b` at the current position (leading
`\b` checked by the caller).  When the greedy two-digit hour fails, the
one-digit backtrack needs `\s*(am|pm)` to match at a digit and fails. -/
def matchBare (cs : List Char) : Option (Nat × Bool) :=
  match cs with
  | d1 :: rest1 =>
    if d1.isDigit then
      match rest1 with
      | d2 :: rest2 =>
        if d2.isDigit then
          match ampmTail (skipWs0 rest2) with
          | some pm => some (10 * dval d1 + dval d2, pm)
          | none => none
        else
          match ampmTail (skipWs0 rest1) with
          | some pm => some (dval d1, pm)
          | none => none
      | [] => none
    else none
  | [] => none

/-- Scan of `re.search` for the third pattern. -/
def scanBare : Option Char → List Char → Option (Nat × Bool)
  | _, [] => none
  | prev, c :: rest =>
    if boundaryBefore prev then
      match matchBare (c :: rest) with
      | some r => some r
      | none => scanBare (some c) rest
    else scanBare (some c) rest

/-- Source function `parse_spanish_time(text)` from `bot.py`: explicit `HH:MM` (validated
0–23 / 0–59, falling through on invalid values), then `a la(s) N` with the
am/pm cues (`de la tarde` / `de la noche` / `pm` force pm with priority over
`de la mañana` / `de la manana` / `am`), then bare `N am` / `N pm`. -/
def parse_spanish_time (text : String) : Option (Nat × Nat) :=
  let t := pyLower text
  let cs := t.toList
  let first :=
    match scanHHMM none cs with
    | some (h, mi) => if h ≤ 23 && mi ≤ 59 then some (h, mi) else none
    | none => none
  match first with
  | some r => some r
  | none =>
    let pmCue := containsSub t ("de la tarde") || containsSub t ("de la noche") ||
      containsSub t ("pm")
    let amCue := containsSub t ("de la mañana") || containsSub t ("de la manana") ||
      containsSub t ("am")
    let ampm : Option Bool := if pmCue then some true else if amCue then some false else none
    let second :=
      match scanALas cs with
      | some h0 =>
        let h1 := if ampm == some true && h0 < 12 then h0 + 12 else h0
        let h2 := if ampm == some false && h1 == 12 then 0 else h1
        if h2 ≤ 23 then some (h2, 0) else none
      | none => none
    match second with
    | some r => some r
    | none =>
      match scanBare none cs with
      | some (h0, pm) =>
        let h1 := if pm && h0 < 12 then h0 + 12 else h0
        let h2 := if !pm && h1 == 12 then 0 else h1
        some (h2, 0)
      | none => none

/-- Worker for `pySplit`: accumulate the current word (reversed) and cut at
whitespace, discarding empty pieces. -/
def splitWsAux (cur : List Char) : List Char → List (List Char)
  | [] => if cur.isEmpty then [] else [cur.reverse]
  | c :: rest =>
    if c.isWhitespace then
      if cur.isEmpty then splitWsAux [] rest else cur.reverse :: splitWsAux [] rest
    else splitWsAux (c :: cur) rest

/-- Python `str.split()` with no argument: split on whitespace runs,
discarding empty pieces (the `replace('\n', ' ')` before it in the source
is subsumed: `\n` is whitespace). -/
def pySplit (s : String) : List String :=
  (splitWsAux [] s.toList).map String.mk

/-- Query tokens of `best_faq_answer`: whitespace tokens of the lowered
query longer than 2 characters, as a set (modelled as a deduplicated
list). -/
def queryTokens (text : String) : List String :=
  ((pySplit text).filter (fun w => 2 < w.length)).dedup

/-- Cardinality of `set(a) ∩ set(b)` with `a` already deduplicated. -/
def interCard (a b : List String) : Nat :=
  (a.filter (fun x => b.contains x)).length

/-- Row of the `faqs` table as used by `best_faq_answer`. -/
structure FAQEntry where
  question : String
  answer : String
  is_active : Bool
deriving DecidableEq, Repr

/-- Score of one FAQ entry in `best_faq_answer`:
`overlap = 2 * |tokens ∩ question tokens| + |tokens ∩ answer tokens|`,
`score = overlap + 3.0 * max(fuzzy_q, fuzzy_a)`.  The difflib
`SequenceMatcher(None, a, b).ratio()` similarity is abstracted as the
parameter `sim` (a rational in place of the float). -/
def faqScore (sim : String → String → ℚ) (tokens : List String) (text : String)
    (f : FAQEntry) : ℚ :=
  let q_text := pyLower f.question
  let a_text := pyLower f.answer
  let overlap : Nat := interCard tokens (pySplit q_text) * 2 + interCard tokens (pySplit a_text)
  (overlap : ℚ) + 3 * max (sim text q_text) (sim text a_text)

/-- Selection loop of `best_faq_answer`: keep `(best, best_score)`,
replacing them only on a strictly greater score (`if score > best_score`),
starting from `(None, 0.0)`. -/
def bestLoop (sim : String → String → ℚ) (tokens : List String) (text : String) :
    List FAQEntry → Option FAQEntry × ℚ → Option FAQEntry × ℚ
  | [], acc => acc
  | f :: fs, (best, best_score) =>
    let score := faqScore sim tokens text f
    if best_score < score then bestLoop sim tokens text fs (some f, score)
    else bestLoop sim tokens text fs (best, best_score)

/-- Source function `best_faq_answer(query_text)` from `bot.py`: tokenize, loop over the
active FAQs keeping the strictly best score, and accept the best entry iff
`best_score >= 3.0` or the question similarity is at least `0.35`. -/
def best_faq_answer (sim : String → String → ℚ) (faqs : List FAQEntry)
    (query_text : String) : Option FAQEntry :=
  if query_text = ("") then none
  else
    let text := pyLower query_text
    let tokens := queryTokens text
    if tokens.isEmpty then none
    else
      let active := faqs.filter (fun f => f.is_active)
      match bestLoop sim tokens text active (none, 0) with
      | (some b, best_score) =>
        if 3 ≤ best_score ∨ (7 / 20 : ℚ) ≤ sim text (pyLower b.question) then some b
        else none
      | (none, _) => none

/-- First maximum of a list under a score (ties to the earlier entry). -/
def argmaxFirst (score : FAQEntry → ℚ) : List FAQEntry → Option FAQEntry
  | [] => none
  | f :: fs =>
    match argmaxFirst score fs with
    | none => some f
    | some g => if score f < score g then some g else some f

/-- Spec definition: `BestMatch` as worded by the spec (§4.5): tokenize the lower-cased
query on whitespace keeping tokens longer than 2 characters, none if no
tokens remain; take the maximum-total active entry with the first entry
winning ties; accept it iff `total ≥ 3.0` or the query/question similarity
is at least `0.35`. -/
def bestMatchSpec (sim : String → String → ℚ) (faqs : List FAQEntry)
    (query_text : String) : Option FAQEntry :=
  let text := pyLower query_text
  let tokens := queryTokens text
  if tokens.isEmpty then none
  else
    let active := faqs.filter (fun f => f.is_active)
    match argmaxFirst (faqScore sim tokens text) active with
    | none => none
    | some b =>
      if 3 ≤ faqScore sim tokens text b ∨ (7 / 20 : ℚ) ≤ sim text (pyLower b.question) then
        some b
      else none

/-- Conversation-state constants of `bot.py` (`range(10)`). -/
inductive RState
  | START
  | HANDLE_MENU
  | SCHEDULE_APPOINTMENT
  | SELECT_DATE
  | SELECT_TIME
  | CONFIRM_APPOINTMENT
  | HANDLE_FAQ
  | HANDLE_CONTACT
  | HANDLE_VOICE
  | COLLECT_EMAIL
deriving DecidableEq, Repr

/-- Trigger gate of `pricing_answer`: some pricing keyword occurs in the
lowered text.  Once triggered the source always produces an answer (a
product-specific or summary message), so only the gate matters for the
state machine. -/
def pricing_answers (text : String) : Bool :=
  if text = ("") then false
  else
    let t := pyLower text
    [("precio"), ("precios"), ("coste"), ("costo"), ("vale"), ("cuesta"),
     ("tarifa"), ("tarifas"), ("presupuesto"), ("presupuestos"),
     ("precio aproximado"), ("cuanto vale"), ("cuánto vale"),
     ("cuanto cuesta"), ("cuánto cuesta")].any (fun w => containsSub t w)

/-- Trigger gate of `smalltalk_answer`: one of the thanks/ok/greeting/bye
phrases occurs in the lowered, stripped text (every triggered branch of the
source returns a canned reply). -/
def smalltalk_answers (text : String) : Bool :=
  if text = ("") then false
  else
    let t := pyStrip (pyLower text)
    ([("gracias"), ("muchas gracias"), ("gracias!"), ("gracias."), ("gracias!!"), ("grac")]
      ++ [("ok"), ("okey"), ("vale"), ("listo"), ("perfecto"), ("entendido")]
      ++ [("hola"), ("buenos dias"), ("buenos días"), ("buenas"), ("buenas tardes"),
          ("buenas noches")]
      ++ [("adios"), ("adiós"), ("chao"), ("hasta luego"), ("nos vemos")]).any
      (fun w => containsSub t w)

/-- Trigger gate of `services_answer`. -/
def services_answers (text : String) : Bool :=
  if text = ("") then false
  else
    let t := pyLower text
    [("servicio"), ("servicios"), ("api"), ("sdk"), ("integración"), ("integracion"),
     ("empres"), ("empresa"), ("volumen")].any (fun w => containsSub t w)

/-- Trigger gate of `renewal_info_answer`. -/
def renewal_info_answers (text : String) : Bool :=
  if text = ("") then false
  else
    let t := pyLower text
    [("renovar"), ("renovación"), ("renovacion"), ("renove"), ("renovarse")].any
      (fun w => containsSub t w)

/-- Environment of `handle_menu` needed for its free-text branch: the
similarity function and FAQ table consulted through `best_faq_answer`. -/
structure MenuEnv where
  sim : String → String → ℚ
  faqs : List FAQEntry

/-- Source function `handle_menu(update, context)` from `bot.py`, as a transition on the
message text: result state plus the staged appointment time written to
`context.user_data` (no branch of `handle_menu` or of the handlers it
delegates to — `schedule_appointment`, `show_faq_categories`,
`show_contact_info`, `show_about` — writes `appointment_time`, hence
`none` everywhere).  The free-text branch tries pricing, small talk,
services, renewal info and the FAQ matcher, in the source order, all of
which reply and stay in `HANDLE_MENU`. -/
def handle_menu (env : MenuEnv) (msg_text : String) : RState × Option Nat :=
  let text := pyLower msg_text
  let keywords := [("agendar"), ("cita"), ("pregunta"), ("faq"), ("contacto"),
    ("ayuda"), ("acerca"), ("authenology")]
  if !(keywords.any (fun k => containsSub text k)) then
    if pricing_answers text then (RState.HANDLE_MENU, none)
    else if smalltalk_answers text then (RState.HANDLE_MENU, none)
    else if services_answers text then (RState.HANDLE_MENU, none)
    else if renewal_info_answers text then (RState.HANDLE_MENU, none)
    else
      match best_faq_answer env.sim env.faqs text with
      | some _ => (RState.HANDLE_MENU, none)
      | none => (RState.HANDLE_MENU, none)
  else if containsSub text ("agendar") || containsSub text ("cita") then
    (RState.SELECT_DATE, none)
  else if containsSub text ("pregunta") || containsSub text ("faq") then
    (RState.HANDLE_FAQ, none)
  else if containsSub text ("contacto") || containsSub text ("ayuda") then
    (RState.HANDLE_CONTACT, none)
  else if containsSub text ("acerca") || containsSub text ("authenology") then
    (RState.HANDLE_MENU, none)
  else (RState.HANDLE_MENU, none)

/-- Local-part character class of the email regex: `[A-Za-z0-9._%+-]`. -/
def isLocalChar (c : Char) : Bool :=
  c.isAlphanum || c == '.' || c == '_' || c == '%' || c == '+' || c == '-'

/-- Domain character class of the email regex: `[A-Za-z0-9.-]`. -/
def isDomChar (c : Char) : Bool :=
  c.isAlphanum || c == '.' || c == '-'

/-- Split at the first `@`, if any (the regex classes exclude `@`, so the
`@` of a match is necessarily the first one). -/
def splitAtAt : List Char → Option (List Char × List Char)
  | [] => none
  | c :: rest =>
    if c == '@' then some ([], rest)
    else (splitAtAt rest).map (fun p => (c :: p.1, p.2))

/-- Existence of a split `pre ++ '.' :: suf` of the domain part with `pre`
non-empty over `[A-Za-z0-9.-]` and `suf` at least two ASCII letters ending
the string — the backtracking matches of `[A-Za-z0-9.-]+\.[A-Za-z]{2,}$`. -/
def existsDotSplit (pre : List Char) : List Char → Bool
  | [] => false
  | c :: rest =>
    (c == '.' && !pre.isEmpty && pre.all isDomChar &&
      decide (2 ≤ rest.length) && rest.all Char.isAlpha) ||
    existsDotSplit (pre ++ [c]) rest

/-- Source function `valid_email(email)` from `bot.py`: full-string match of
`^[A-Za-z0-9._%+-]+@[A-Za-z0-9.-]+\.[A-Za-z]{2,}$` on the stripped input. -/
def valid_email (email : String) : Bool :=
  let cs := (pyStrip email).toList
  match splitAtAt cs with
  | none => false
  | some (lo, rest) => !lo.isEmpty && lo.all isLocalChar && existsDotSplit [] rest

/-- Email update of `handle_email_input` (`user.email = email; db.commit()`):
set the email of the first user with the Telegram id. -/
def set_email (users : List UserRec) (tid : Nat) (em : String) : List UserRec :=
  match users with
  | [] => []
  | u :: rest =>
    if u.telegram_id == tid then { u with email := some em } :: rest
    else u :: set_email rest tid em

/-- Outcome of a booking-commit handler: resulting appointment store,
returned conversation state, and the message shown to the user. -/
structure CommitOut where
  store : List Appointment
  ret : RState
  message : String
deriving DecidableEq, Repr

/-- Outcome of `handle_email_input`: user table, appointment store,
returned conversation state, message. -/
structure EmailOut where
  users : List UserRec
  store : List Appointment
  ret : RState
  message : String
deriving DecidableEq, Repr

/-- Appointment row inserted by every commit path:
`Appointment(user_id=..., appointment_date=..., duration_minutes=30,
status=AppointmentStatus.CONFIRMED)`. -/
def mkAppt (uid t : Nat) : Appointment :=
  { user_id := uid, appointment_date := t, duration_minutes := 30,
    status := ApptStatus.confirmed }

/-- Message of the `except` branch of `save_appointment` (also reached by
the availability `raise`): the generic failure text. -/
def saveApptErrorMsg : String :=
  "❌ *Error*\n\nNo se pudo agendar la cita. Por favor, inténtalo de nuevo más tarde o contáctanos para asistencia."

/-- Confirmation headline of `save_appointment` (date details elided). -/
def saveApptOkMsg : String := "✅ *¡Cita confirmada!*"

/-- Conflict message of `handle_email_input`. -/
def emailConflictMsg : String :=
  "El horario seleccionado ya no está disponible. Intenta con otro horario."

/-- Invalid-email prompt of `handle_email_input`. -/
def invalidEmailMsg : String :=
  "El correo no parece válido. Por favor, envíame un correo válido (ej: nombre@dominio.com)."

/-- Conflict message of the voice confirmation branch. -/
def voiceConflictMsg : String :=
  "El horario ya no está disponible. Dime otra hora o día."

/-- Conflict message of the voice auto-booking branch. -/
def voiceAutoConflictMsg : String :=
  "Ese horario acaba de ocuparse. Te muestro opciones disponibles para ese día:"

/-- Source function `save_appointment(update, context)` from `bot.py` (button confirmation
path), as a transition on the store.  Inputs: callback data, looked-up
user, staged `appointment_date` / `appointment_time` from `user_data`.
The availability `raise` inside `try` lands in the `except` branch, which
shows the generic failure message; message date formatting is elided. -/
def save_appointment (query_data : String) (user : Option UserRec)
    (appointment_date appointment_time : Option Nat)
    (store : List Appointment) : CommitOut :=
  if query_data = ("cancel_appt") then
    { store := store, ret := RState.HANDLE_MENU,
      message := "❌ *Cita cancelada*\n\nNo se ha agendado ninguna cita. ¿En qué más puedo ayudarte?" }
  else
    match user with
    | none =>
      { store := store, ret := RState.HANDLE_MENU,
        message := "❌ *Error*\n\nNo se pudo encontrar tu información de usuario. Por favor, inicia el bot nuevamente con /start." }
    | some u =>
      match appointment_date, appointment_time with
      | some _, some t =>
        if u.email.isNone then
          { store := store, ret := RState.COLLECT_EMAIL,
            message := "✉️ *Antes de confirmar*, por favor escribe tu correo electrónico para enviarte la confirmación de la cita." }
        else if !is_slot_available store t (t + 30) then
          { store := store, ret := RState.HANDLE_MENU, message := saveApptErrorMsg }
        else
          { store := store ++ [mkAppt u.id t],
            ret := RState.HANDLE_MENU, message := saveApptOkMsg }
      | _, _ =>
        { store := store, ret := RState.HANDLE_MENU,
          message := "❌ *Error*\n\nNo se pudo obtener la información de la cita. Por favor, intenta nuevamente." }

/-- Source function `handle_email_input(update, context)` from `bot.py`: validate the
email, persist it on the user record (committed before any availability
check), then re-check the staged slot and only insert when still free. -/
def handle_email_input (users : List UserRec) (store : List Appointment)
    (tid : Nat) (appointment_time : Option Nat) (msg_text : String) : EmailOut :=
  let email := pyStrip msg_text
  if !valid_email email then
    { users := users, store := store, ret := RState.COLLECT_EMAIL,
      message := invalidEmailMsg }
  else
    match users.find? (fun u => u.telegram_id == tid) with
    | none =>
      { users := users, store := store, ret := RState.HANDLE_MENU,
        message := "No pude encontrar tu usuario. Envía /start para reiniciar." }
    | some u =>
      let users1 := set_email users tid email
      match appointment_time with
      | none =>
        { users := users1, store := store, ret := RState.HANDLE_MENU,
          message := "No tengo el horario de la cita. Por favor intenta agendar nuevamente." }
      | some t =>
        if !is_slot_available store t (t + 30) then
          { users := users1, store := store, ret := RState.HANDLE_MENU,
            message := emailConflictMsg }
        else
          { users := users1, store := store ++ [mkAppt u.id t],
            ret := RState.HANDLE_MENU, message := saveApptOkMsg }

/-- Voice confirmation commit (`handle_voice_message`, the
`CONFIRM_APPOINTMENT` branch on a confirm word): user lookup, staged time,
email requirement, availability re-check, insert. -/
def voice_confirm_commit (user : Option UserRec) (appointment_time : Option Nat)
    (store : List Appointment) : CommitOut :=
  match user with
  | none =>
    { store := store, ret := RState.HANDLE_MENU,
      message := "❌ Error: no encontré tu usuario. Envía /start para reiniciar." }
  | some u =>
    match appointment_time with
    | none =>
      { store := store, ret := RState.HANDLE_MENU,
        message := "No tengo la hora seleccionada. Dime un día y hora para reagendar." }
    | some t =>
      if u.email.isNone then
        { store := store, ret := RState.COLLECT_EMAIL,
          message := "✉️ Antes de confirmar, por favor escribe tu correo electrónico." }
      else if !is_slot_available store t (t + 30) then
        { store := store, ret := RState.HANDLE_MENU, message := voiceConflictMsg }
      else
        { store := store ++ [mkAppt u.id t],
          ret := RState.HANDLE_MENU, message := saveApptOkMsg }

/-- Voice auto-booking commit (`handle_voice_message`, the branch reached
with a parsed date/time, a picked slot and a user that already has an
email): availability re-check, on conflict the day's slot list is
re-offered (`show_time_slots_for_date` returns `SELECT_TIME`, or
`SELECT_DATE` when the day has no slots left). -/
def voice_auto_book (bs be : Nat) (u : UserRec) (slot_start : Nat) (d : Nat)
    (store : List Appointment) : CommitOut :=
  if !is_slot_available store slot_start (slot_start + 30) then
    { store := store,
      ret := if (get_available_slots_from_db bs be store d).isEmpty then RState.SELECT_DATE
        else RState.SELECT_TIME,
      message := voiceAutoConflictMsg }
  else
    { store := store ++ [mkAppt u.id slot_start],
      ret := RState.HANDLE_MENU, message := saveApptOkMsg }

/-- Result of one `CommitAppointment` attempt. -/
inductive CommitResult
  | success
  | conflict
deriving DecidableEq, Repr

/-- One in-flight booking commit: its user id, requested start time, program
counter (0 = before the availability read, 1 = after it, 2 = done), the
availability it read, and its final result. -/
structure Caller where
  uid : Nat
  startT : Nat
  pc : Nat
  avail : Bool
  res : Option CommitResult
deriving DecidableEq, Repr

/-- One atomic step of a commit against the shared store, following
`save_appointment`: step 0 evaluates `is_slot_available(t, t + 30)` (a
SELECT), step 1 inserts and commits when that read said available, else
reports the conflict.  Nothing in the source serializes the two steps (no
transaction isolation around check-plus-insert, no lock, no unique slot
constraint), so steps of different handlers may interleave freely
(`concurrent_updates(True)`). -/
def stepCaller (c : Caller) (store : List Appointment) : Caller × List Appointment :=
  match c.pc with
  | 0 => ({ c with pc := 1, avail := is_slot_available store c.startT (c.startT + 30) }, store)
  | 1 =>
    if c.avail then
      ({ c with pc := 2, res := some CommitResult.success },
        store ++ [mkAppt c.uid c.startT])
    else
      ({ c with pc := 2, res := some CommitResult.conflict }, store)
  | _ => (c, store)

/-- Global state of two concurrent commits. -/
structure RaceState where
  a : Caller
  b : Caller
  store : List Appointment
deriving DecidableEq, Repr

/-- Run an interleaving: `true` steps caller `a`, `false` steps caller `b`. -/
def runSchedule : List Bool → RaceState → RaceState
  | [], s => s
  | true :: rest, s =>
    let p := stepCaller s.a s.store
    runSchedule rest { s with a := p.1, store := p.2 }
  | false :: rest, s =>
    let p := stepCaller s.b s.store
    runSchedule rest { s with b := p.1, store := p.2 }

/-- Two commits for the same 09:00 slot of day 0, both yet to run, over an
empty appointment store. -/
def raceInit : RaceState :=
  { a := { uid := 1, startT := 540, pc := 0, avail := false, res := none },
    b := { uid := 2, startT := 540, pc := 0, avail := false, res := none },
    store := [] }

/-! ### Structure of the slot loop -/

theorem slotLoop_formula (end_dt : Nat) : ∀ cur, slotLoop end_dt cur =
    (List.range ((end_dt - cur) / 30)).map
      (fun k => { start := cur + 30 * k, stop := cur + 30 * k + 30 }) := by
  have H : ∀ n cur, end_dt - cur ≤ n → slotLoop end_dt cur =
      (List.range ((end_dt - cur) / 30)).map
        (fun k => { start := cur + 30 * k, stop := cur + 30 * k + 30 }) := by
    intro n
    induction n with
    | zero =>
      intro cur h
      rw [slotLoop]
      have h1 : ¬ (cur + 30 ≤ end_dt) := by omega
      have h2 : (end_dt - cur) / 30 = 0 := by omega
      simp [h1, h2]
    | succ n ih =>
      intro cur h
      rw [slotLoop]
      by_cases hle : cur + 30 ≤ end_dt
      · have h30 : (end_dt - cur) / 30 = (end_dt - (cur + 30)) / 30 + 1 := by omega
        rw [dif_pos hle, ih (cur + 30) (by omega), h30, List.range_succ_eq_map]
        simp only [List.map_cons, List.map_map]
        refine congrArg₂ List.cons ?_ ?_
        · simp
        · refine List.map_congr_left ?_
          intro k hk
          simp only [Function.comp_apply, Slot.mk.injEq]
          constructor <;> omega
      · have h2 : (end_dt - cur) / 30 = 0 := by omega
        simp [hle, h2]
  intro cur
  exact H (end_dt - cur) cur le_rfl

theorem daterange_slots_eq (bs be d : Nat) :
    daterange_slots bs be d =
      (List.range ((be * 60 - bs * 60) / 30)).map
        (fun k => { start := d * 1440 + bs * 60 + 30 * k,
                    stop := d * 1440 + bs * 60 + 30 * k + 30 }) := by
  unfold daterange_slots
  rw [slotLoop_formula]
  have : d * 1440 + be * 60 - (d * 1440 + bs * 60) = be * 60 - bs * 60 := by omega
  rw [this]

theorem mem_daterange_slots (bs be d : Nat) (s : Slot) :
    s ∈ daterange_slots bs be d ↔
      ∃ k, s = { start := d * 1440 + bs * 60 + 30 * k,
                 stop := d * 1440 + bs * 60 + 30 * k + 30 } ∧
        d * 1440 + bs * 60 + 30 * k + 30 ≤ d * 1440 + be * 60 := by
  rw [daterange_slots_eq]
  simp only [List.mem_map, List.mem_range]
  constructor
  · rintro ⟨k, hk, rfl⟩
    exact ⟨k, rfl, by omega⟩
  · rintro ⟨k, rfl, hk⟩
    exact ⟨k, by omega, rfl⟩

/-- C5: for every date and configured business-hours pair, `DaySlots`
(`daterange_slots`) yields slots that are exactly 30 minutes wide, fully
inside `[businessStart, businessEnd)` (every slot has
`start + 30 ≤ businessEnd`), mutually non-overlapping and ordered, with the
first slot starting at `businessStart` and each slot starting where the
previous one ends, and every 30-minute-aligned slot fitting inside the
window is produced. -/
theorem C5_day_slots_structure (bs be d : Nat) :
    (∀ s ∈ daterange_slots bs be d, s.stop = s.start + 30) ∧
    (∀ s ∈ daterange_slots bs be d,
      d * 1440 + bs * 60 ≤ s.start ∧ s.stop ≤ d * 1440 + be * 60) ∧
    List.Pairwise (fun a b => a.stop ≤ b.start) (daterange_slots bs be d) ∧
    (∀ s, (daterange_slots bs be d).head? = some s → s.start = d * 1440 + bs * 60) ∧
    (∀ k a b, (daterange_slots bs be d)[k]? = some a →
      (daterange_slots bs be d)[k + 1]? = some b → b.start = a.stop) ∧
    (∀ k, d * 1440 + bs * 60 + 30 * k + 30 ≤ d * 1440 + be * 60 →
      ({ start := d * 1440 + bs * 60 + 30 * k,
         stop := d * 1440 + bs * 60 + 30 * k + 30 } : Slot) ∈ daterange_slots bs be d) := by
  refine ⟨?_, ?_, ?_, ?_, ?_, ?_⟩
  · intro s hs
    rcases (mem_daterange_slots bs be d s).1 hs with ⟨k, rfl, hk⟩
    rfl
  · intro s hs
    rcases (mem_daterange_slots bs be d s).1 hs with ⟨k, rfl, hk⟩
    change d * 1440 + bs * 60 ≤ d * 1440 + bs * 60 + 30 * k ∧
      d * 1440 + bs * 60 + 30 * k + 30 ≤ d * 1440 + be * 60
    omega
  · rw [daterange_slots_eq]
    refine List.Pairwise.map _ ?_ (List.pairwise_lt_range _)
    intro a b hab
    change d * 1440 + bs * 60 + 30 * a + 30 ≤ d * 1440 + bs * 60 + 30 * b
    omega
  · intro s hs
    rw [daterange_slots_eq] at hs
    rcases hn : (be * 60 - bs * 60) / 30 with _ | n
    · rw [hn] at hs; simp at hs
    · rw [hn, List.range_succ_eq_map] at hs
      simp only [List.map_cons, List.head?_cons, Option.some.injEq] at hs
      rw [← hs]
      change d * 1440 + bs * 60 + 30 * 0 = d * 1440 + bs * 60
      omega
  · intro k a b ha hb
    rw [daterange_slots_eq] at ha hb
    rw [List.getElem?_map] at ha hb
    rcases hka : (List.range ((be * 60 - bs * 60) / 30))[k]? with _ | ka
    · rw [hka] at ha; simp at ha
    · rcases hkb : (List.range ((be * 60 - bs * 60) / 30))[k + 1]? with _ | kb
      · rw [hkb] at hb; simp at hb
      · rw [hka] at ha
        rw [hkb] at hb
        simp only [Option.map_some', Option.some.injEq] at ha hb
        have e1 : ka = k := by
          by_cases hk : k < (be * 60 - bs * 60) / 30
          · rw [List.getElem?_range hk] at hka; exact (Option.some.injEq _ _ ▸ hka).symm
          · rw [List.getElem?_eq_none (by simpa using hk)] at hka; cases hka
        have e2 : kb = k + 1 := by
          by_cases hk : k + 1 < (be * 60 - bs * 60) / 30
          · rw [List.getElem?_range hk] at hkb; exact (Option.some.injEq _ _ ▸ hkb).symm
          · rw [List.getElem?_eq_none (by simpa using hk)] at hkb; cases hkb
        rw [e1] at ha
        rw [e2] at hb
        rw [← ha, ← hb]
        change d * 1440 + bs * 60 + 30 * (k + 1) = d * 1440 + bs * 60 + 30 * k + 30
        omega
  · intro k hk
    exact (mem_daterange_slots bs be d _).2 ⟨k, rfl, hk⟩

/-- Closed instance of `C5_day_slots_structure` with the default business
hours 8–17 on day 0: the aligned slot `[480, 510)` is produced. -/
theorem C5_day_slots_structure_witness :
    ({ start := 0 * 1440 + 8 * 60 + 30 * 0,
       stop := 0 * 1440 + 8 * 60 + 30 * 0 + 30 } : Slot) ∈ daterange_slots 8 17 0 :=
  (C5_day_slots_structure 8 17 0).2.2.2.2.2 0 (by norm_num)

/-! ### Availability -/

theorem onDayNonCancelled_iff (day : Nat) (a : Appointment) :
    onDayNonCancelled day a = true ↔
      day * 1440 ≤ a.appointment_date ∧ a.appointment_date ≤ day * 1440 + 1439 ∧
        a.status ≠ ApptStatus.cancelled := by
  simp [onDayNonCancelled, Bool.and_eq_true, decide_eq_true_eq, and_assoc]

theorem mem_get_available (bs be d : Nat) (store : List Appointment) (s : Slot) :
    s ∈ get_available_slots_from_db bs be store d ↔
      s ∈ daterange_slots bs be d ∧
      ∀ a ∈ store, onDayNonCancelled d a = true →
        ¬(s.start < a.appointment_date + a.duration_minutes ∧
          a.appointment_date < s.stop) := by
  simp only [get_available_slots_from_db, List.mem_filter]
  refine and_congr_right ?_
  intro _
  rw [Bool.not_eq_true', List.any_eq_false]
  constructor
  · intro hx a ha hd
    have hfa := hx a (List.mem_filter.2 ⟨ha, hd⟩)
    simp only [Bool.and_eq_true, decide_eq_true_eq, not_and, gt_iff_lt] at hfa
    rintro ⟨h1, h2⟩
    exact hfa h1 h2
  · intro hx a ha
    have hm := List.mem_filter.1 ha
    simp only [Bool.and_eq_true, decide_eq_true_eq, not_and, gt_iff_lt]
    intro h1 h2
    exact hx a hm.1 hm.2 ⟨h1, h2⟩

/-- C4: for every date and every store of appointments (with the domain's
fixed 30-minute duration and a business window lying strictly inside the
day, as with the configured 8–17 hours), `AvailableSlots`
(`get_available_slots_from_db`) consists of exactly the `DaySlots` entries
that overlap no non-cancelled appointment under the half-open rule —
cancelled appointments never block — and it preserves chronological order
(it is a sublist of `DaySlots`). -/
theorem C4_available_slots_characterization (bs be d : Nat) (store : List Appointment)
    (hbs : 1 ≤ bs) (hbe : be ≤ 24)
    (hdur : ∀ a ∈ store, a.duration_minutes = 30) :
    (∀ s, s ∈ get_available_slots_from_db bs be store d ↔
      s ∈ daterange_slots bs be d ∧
      ∀ a ∈ store, a.status ≠ ApptStatus.cancelled →
        ¬(s.start < a.appointment_date + a.duration_minutes ∧
          a.appointment_date < s.stop)) ∧
    List.Sublist (get_available_slots_from_db bs be store d) (daterange_slots bs be d) := by
  constructor
  · intro s
    rw [mem_get_available]
    refine and_congr_right ?_
    intro hmem
    rcases (mem_daterange_slots bs be d s).1 hmem with ⟨k, rfl, hk⟩
    constructor
    · intro h a ha hst hov
      rcases Nat.lt_or_ge a.appointment_date (d * 1440) with hlt | hge
      · have h30 := hdur a ha
        revert hov
        change ¬(d * 1440 + bs * 60 + 30 * k < a.appointment_date + a.duration_minutes ∧
          a.appointment_date < d * 1440 + bs * 60 + 30 * k + 30)
        omega
      · rcases Nat.lt_or_ge (d * 1440 + 1439) a.appointment_date with hgt | hle
        · revert hov
          change ¬(d * 1440 + bs * 60 + 30 * k < a.appointment_date + a.duration_minutes ∧
            a.appointment_date < d * 1440 + bs * 60 + 30 * k + 30)
          omega
        · exact h a ha ((onDayNonCancelled_iff d a).2 ⟨hge, hle, hst⟩) hov
    · intro h a ha hd
      exact h a ha ((onDayNonCancelled_iff d a).1 hd).2.2
  · exact List.filter_sublist _

/-- Closed instance of `C4_available_slots_characterization`: with one
confirmed appointment at 09:00 on day 0, the 08:00 slot is available. -/
theorem C4_available_slots_characterization_witness :
    ({ start := 480, stop := 510 } : Slot) ∈
      get_available_slots_from_db 8 17
        [{ user_id := 1, appointment_date := 540, duration_minutes := 30,
           status := ApptStatus.confirmed }] 0 :=
  ((C4_available_slots_characterization 8 17 0 _ (by norm_num) (by norm_num)
      (by intro a ha; simp only [List.mem_singleton] at ha; rw [ha])).1 _).mpr
    ⟨by rw [daterange_slots_eq]; decide, by decide⟩

/-! ### Sorting lemmas for the slot picker -/

theorem mem_insertSlot (x : Slot) (l : List Slot) (y : Slot) :
    y ∈ insertSlot x l ↔ y = x ∨ y ∈ l := by
  induction l with
  | nil => simp [insertSlot]
  | cons z zs ih =>
    unfold insertSlot
    split
    · simp [List.mem_cons]
    · simp only [List.mem_cons, ih]
      tauto

theorem mem_sortSlots (l : List Slot) (y : Slot) : y ∈ sortSlots l ↔ y ∈ l := by
  induction l with
  | nil => simp [sortSlots]
  | cons x xs ih =>
    unfold sortSlots
    rw [mem_insertSlot]
    simp [List.mem_cons, ih]

theorem insertSlot_ne_nil (x : Slot) (l : List Slot) : insertSlot x l ≠ [] := by
  cases l with
  | nil => simp [insertSlot]
  | cons z zs =>
    unfold insertSlot
    split <;> simp

theorem sortSlots_eq_nil_iff (l : List Slot) : sortSlots l = [] ↔ l = [] := by
  cases l with
  | nil => simp [sortSlots]
  | cons x xs =>
    unfold sortSlots
    simp [insertSlot_ne_nil]

theorem pairwise_insertSlot (x : Slot) (l : List Slot)
    (h : List.Pairwise (fun a b => a.start ≤ b.start) l) :
    List.Pairwise (fun a b => a.start ≤ b.start) (insertSlot x l) := by
  induction l with
  | nil => simp [insertSlot]
  | cons z zs ih =>
    unfold insertSlot
    rcases List.pairwise_cons.1 h with ⟨hz, hzs⟩
    split
    · rename_i hle
      refine List.pairwise_cons.2 ⟨?_, h⟩
      intro b hb
      rcases List.mem_cons.1 hb with rfl | hb
      · exact hle
      · exact le_trans hle (hz b hb)
    · rename_i hgt
      refine List.pairwise_cons.2 ⟨?_, ih hzs⟩
      intro b hb
      rcases (mem_insertSlot x zs b).1 hb with rfl | hb
      · omega
      · exact hz b hb

theorem pairwise_sortSlots (l : List Slot) :
    List.Pairwise (fun a b => a.start ≤ b.start) (sortSlots l) := by
  induction l with
  | nil => simp [sortSlots]
  | cons x xs ih => exact pairwise_insertSlot x (sortSlots xs) ih

theorem head_min_of_pairwise (L : List Slot)
    (h : List.Pairwise (fun a b => a.start ≤ b.start) L) (a : Slot)
    (ha : L.head? = some a) : ∀ b ∈ L, a.start ≤ b.start := by
  cases L with
  | nil => cases ha
  | cons x t =>
    simp only [List.head?_cons, Option.some.injEq] at ha
    subst ha
    intro b hb
    rcases List.mem_cons.1 hb with rfl | hb
    · exact le_refl _
    · exact (List.pairwise_cons.1 h).1 b hb

theorem last_max_of_pairwise (L : List Slot)
    (h : List.Pairwise (fun a b => a.start ≤ b.start) L) (a : Slot)
    (ha : L.getLast? = some a) : ∀ b ∈ L, b.start ≤ a.start := by
  induction L with
  | nil => cases ha
  | cons x t ih =>
    cases t with
    | nil =>
      simp only [List.getLast?_singleton, Option.some.injEq] at ha
      subst ha
      intro b hb
      rcases List.mem_singleton.1 hb with rfl
      exact le_refl _
    | cons y t2 =>
      rw [List.getLast?_cons_cons] at ha
      have hmem : a ∈ y :: t2 := by
        have hx : a ∈ (y :: t2).getLast? := ha
        rcases List.mem_getLast?_eq_getLast hx with ⟨hne, rfl⟩
        exact List.getLast_mem hne
      intro b hb
      rcases List.mem_cons.1 hb with rfl | hb
      · exact (List.pairwise_cons.1 h).1 a hmem
      · exact ih (List.pairwise_cons.1 h).2 ha b hb

/-- C8: `PickBestSlot` (`pick_best_slot_for_datetime`) returns none exactly
when the day has no available slots; any result is an available slot; when
an exact hour/minute match exists the result is such a match; otherwise,
when a slot at or after the requested time exists, the result is the
earliest such slot; otherwise the result is the latest available slot. -/
theorem C8_pick_best_slot (bs be d h mi : Nat) (store : List Appointment) :
    (pick_best_slot_for_datetime bs be store d h mi = none ↔
      get_available_slots_from_db bs be store d = []) ∧
    (∀ s, pick_best_slot_for_datetime bs be store d h mi = some s →
      s ∈ get_available_slots_from_db bs be store d) ∧
    ((∃ s ∈ get_available_slots_from_db bs be store d,
        hourOf s.start = h ∧ minuteOf s.start = mi) →
      ∃ s, pick_best_slot_for_datetime bs be store d h mi = some s ∧
        hourOf s.start = h ∧ minuteOf s.start = mi) ∧
    ((∀ s ∈ get_available_slots_from_db bs be store d,
        ¬(hourOf s.start = h ∧ minuteOf s.start = mi)) →
      (∃ s ∈ get_available_slots_from_db bs be store d,
        d * 1440 + h * 60 + mi ≤ s.start) →
      ∃ s, pick_best_slot_for_datetime bs be store d h mi = some s ∧
        d * 1440 + h * 60 + mi ≤ s.start ∧
        ∀ s2 ∈ get_available_slots_from_db bs be store d,
          d * 1440 + h * 60 + mi ≤ s2.start → s.start ≤ s2.start) ∧
    ((∀ s ∈ get_available_slots_from_db bs be store d,
        ¬(hourOf s.start = h ∧ minuteOf s.start = mi)) →
      (∀ s ∈ get_available_slots_from_db bs be store d,
        s.start < d * 1440 + h * 60 + mi) →
      get_available_slots_from_db bs be store d ≠ [] →
      ∃ s, pick_best_slot_for_datetime bs be store d h mi = some s ∧
        ∀ s2 ∈ get_available_slots_from_db bs be store d, s2.start ≤ s.start) := by
  have hpick : pick_best_slot_for_datetime bs be store d h mi =
      (if (get_available_slots_from_db bs be store d).isEmpty then none
       else if !((get_available_slots_from_db bs be store d).filter (fun s =>
           decide (hourOf s.start = h) && decide (minuteOf s.start = mi))).isEmpty then
         ((get_available_slots_from_db bs be store d).filter (fun s =>
           decide (hourOf s.start = h) && decide (minuteOf s.start = mi))).head?
       else if !((get_available_slots_from_db bs be store d).filter (fun s =>
           decide (d * 1440 + h * 60 + mi ≤ s.start))).isEmpty then
         (sortSlots ((get_available_slots_from_db bs be store d).filter (fun s =>
           decide (d * 1440 + h * 60 + mi ≤ s.start)))).head?
       else (sortSlots (get_available_slots_from_db bs be store d)).getLast?) := rfl
  set L := get_available_slots_from_db bs be store d with hL
  set ex := L.filter (fun s => decide (hourOf s.start = h) && decide (minuteOf s.start = mi))
    with hexd
  set af := L.filter (fun s => decide (d * 1440 + h * 60 + mi ≤ s.start)) with hafd
  have hmem_ex : ∀ s, s ∈ ex ↔ s ∈ L ∧ hourOf s.start = h ∧ minuteOf s.start = mi := by
    intro s
    rw [hexd, List.mem_filter]
    simp [Bool.and_eq_true, decide_eq_true_eq]
  have hmem_af : ∀ s, s ∈ af ↔ s ∈ L ∧ d * 1440 + h * 60 + mi ≤ s.start := by
    intro s
    rw [hafd, List.mem_filter]
    simp [decide_eq_true_eq]
  refine ⟨?_, ?_, ?_, ?_, ?_⟩
  · rw [hpick]
    by_cases h1 : L.isEmpty
    · rw [if_pos h1]
      simpa using List.isEmpty_iff.1 h1
    · rw [if_neg h1]
      have hLne : L ≠ [] := by
        intro hcon
        exact h1 (by simp [hcon])
      constructor
      · intro hres
        exfalso
        by_cases h2 : (!ex.isEmpty) = true
        · rw [if_pos h2] at hres
          rw [List.head?_eq_none_iff] at hres
          rw [hres] at h2
          simp at h2
        · rw [if_neg h2] at hres
          by_cases h3 : (!af.isEmpty) = true
          · rw [if_pos h3] at hres
            rw [List.head?_eq_none_iff, sortSlots_eq_nil_iff] at hres
            rw [hres] at h3
            simp at h3
          · rw [if_neg h3] at hres
            rw [List.getLast?_eq_none_iff, sortSlots_eq_nil_iff] at hres
            exact hLne hres
      · intro hcon
        exact absurd hcon hLne
  · intro s hs
    rw [hpick] at hs
    by_cases h1 : L.isEmpty
    · rw [if_pos h1] at hs
      cases hs
    · rw [if_neg h1] at hs
      by_cases h2 : (!ex.isEmpty) = true
      · rw [if_pos h2] at hs
        exact ((hmem_ex s).1 (List.mem_of_mem_head? hs)).1
      · rw [if_neg h2] at hs
        by_cases h3 : (!af.isEmpty) = true
        · rw [if_pos h3] at hs
          exact ((hmem_af s).1 ((mem_sortSlots _ _).1 (List.mem_of_mem_head? hs))).1
        · rw [if_neg h3] at hs
          have hx : s ∈ (sortSlots L).getLast? := hs
          rcases List.mem_getLast?_eq_getLast hx with ⟨hne, rfl⟩
          exact (mem_sortSlots _ _).1 (List.getLast_mem hne)
  · rintro ⟨s0, hs0, hP⟩
    have hLne : ¬L.isEmpty = true := by
      rw [List.isEmpty_iff]
      exact List.ne_nil_of_mem hs0
    have hexne : ex ≠ [] := List.ne_nil_of_mem ((hmem_ex s0).2 ⟨hs0, hP⟩)
    rcases hhd : ex.head? with _ | s
    · rw [List.head?_eq_none_iff] at hhd
      exact absurd hhd hexne
    · refine ⟨s, ?_, ?_⟩
      · rw [hpick, if_neg hLne, if_pos (by simpa using hexne)]
        exact hhd
      · exact ((hmem_ex s).1 (List.mem_of_mem_head? hhd)).2
  · intro hnoex
    rintro ⟨s0, hs0, hts0⟩
    have hLne : ¬L.isEmpty = true := by
      rw [List.isEmpty_iff]
      exact List.ne_nil_of_mem hs0
    have hexnil : ex = [] := by
      rw [List.eq_nil_iff_forall_not_mem]
      intro x hx
      rcases (hmem_ex x).1 hx with ⟨hxL, hxP⟩
      exact hnoex x hxL hxP
    have hafne : af ≠ [] := List.ne_nil_of_mem ((hmem_af s0).2 ⟨hs0, hts0⟩)
    have hsafne : sortSlots af ≠ [] := by
      rw [Ne, sortSlots_eq_nil_iff]
      exact hafne
    rcases hhd : (sortSlots af).head? with _ | s
    · rw [List.head?_eq_none_iff] at hhd
      exact absurd hhd hsafne
    · have hsmem : s ∈ af := (mem_sortSlots _ _).1 (List.mem_of_mem_head? hhd)
      refine ⟨s, ?_, ((hmem_af s).1 hsmem).2, ?_⟩
      · rw [hpick, if_neg hLne, if_neg (by simp [hexnil]),
          if_pos (by simpa using hafne)]
        exact hhd
      · intro s2 hs2 hts2
        have hs2af : s2 ∈ sortSlots af := (mem_sortSlots _ _).2 ((hmem_af s2).2 ⟨hs2, hts2⟩)
        exact head_min_of_pairwise _ (pairwise_sortSlots af) s hhd s2 hs2af
  · intro hnoex hall hLne2
    have hLne : ¬L.isEmpty = true := by
      rw [List.isEmpty_iff]
      exact hLne2
    have hexnil : ex = [] := by
      rw [List.eq_nil_iff_forall_not_mem]
      intro x hx
      rcases (hmem_ex x).1 hx with ⟨hxL, hxP⟩
      exact hnoex x hxL hxP
    have hafnil : af = [] := by
      rw [List.eq_nil_iff_forall_not_mem]
      intro x hx
      rcases (hmem_af x).1 hx with ⟨hxL, hxt⟩
      exact absurd hxt (by have := hall x hxL; omega)
    have hsLne : sortSlots L ≠ [] := by
      rw [Ne, sortSlots_eq_nil_iff]
      exact hLne2
    rcases hlast : (sortSlots L).getLast? with _ | s
    · rw [List.getLast?_eq_none_iff] at hlast
      exact absurd hlast hsLne
    · refine ⟨s, ?_, ?_⟩
      · rw [hpick, if_neg hLne, if_neg (by simp [hexnil]), if_neg (by simp [hafnil])]
        exact hlast
      · intro s2 hs2
        have hs2s : s2 ∈ sortSlots L := (mem_sortSlots _ _).2 hs2
        exact last_max_of_pairwise _ (pairwise_sortSlots L) s hlast s2 hs2s
/-- Closed instance of `C8_pick_best_slot`: with an empty store, asking for
14:00 on day 0 returns a slot starting at 14:00. -/
theorem C8_pick_best_slot_witness :
    ∃ s, pick_best_slot_for_datetime 8 17 [] 0 14 0 = some s ∧
      hourOf s.start = 14 ∧ minuteOf s.start = 0 :=
  (C8_pick_best_slot 8 17 0 14 0 []).2.2.1
    ⟨{ start := 840, stop := 870 },
      (mem_get_available 8 17 0 [] { start := 840, stop := 870 }).2
        ⟨by rw [daterange_slots_eq]; decide, by intro a ha; cases ha⟩,
      by decide, by decide⟩

/-! ### Spanish date parsing -/

theorem weekday_delta_bounds (today idx : Nat) (hidx : idx < 7) :
    today < today + (if ((idx + 7 - pyWeekday today) % 7) = 0 then 7
      else ((idx + 7 - pyWeekday today) % 7)) ∧
    today + (if ((idx + 7 - pyWeekday today) % 7) = 0 then 7
      else ((idx + 7 - pyWeekday today) % 7)) ≤ today + 7 ∧
    pyWeekday (today + (if ((idx + 7 - pyWeekday today) % 7) = 0 then 7
      else ((idx + 7 - pyWeekday today) % 7))) = idx := by
  unfold pyWeekday
  split <;> omega

/-- C6: `ParseDate` handles, in priority order, "pasado mañana" (+2),
"mañana" (+1), "hoy" (+0), then every Spanish weekday name, mapped to the
next occurrence of that weekday strictly after today (a full week ahead when
today already is that weekday, so a weekday name never yields today), and
returns none when nothing matches.  Day 19884 is 2024-06-10 (a Monday, days
since 1970-01-01): "mañana" gives 19885 = 2024-06-11, "viernes" gives
19888 = 2024-06-14, "hoy" gives 19884. -/
theorem C6_parse_date_behaviour :
    (∀ today, parse_spanish_date today ("pasado mañana") = some (today + 2)) ∧
    (∀ today, parse_spanish_date today ("mañana") = some (today + 1)) ∧
    (∀ today, parse_spanish_date today ("hoy") = some today) ∧
    (∀ today r name idx, (name, idx) ∈ weekdayTable →
      parse_spanish_date today name = some r →
      today < r ∧ r ≤ today + 7 ∧ pyWeekday r = idx) ∧
    parse_spanish_date 19884 ("mañana") = some 19885 ∧
    parse_spanish_date 19884 ("viernes") = some 19888 ∧
    parse_spanish_date 19884 ("hoy") = some 19884 ∧
    (∀ today, parse_spanish_date today ("tal vez luego") = none) := by
  refine ⟨fun today => rfl, fun today => rfl, fun today => rfl, ?_, by decide, by decide,
    by decide, fun today => rfl⟩
  intro today r name idx hmem hr
  simp only [weekdayTable, List.mem_cons, List.not_mem_nil, or_false,
    Prod.mk.injEq] at hmem
  rcases hmem with h9 | h9 | h9 | h9 | h9 | h9 | h9 | h9 | h9 <;>
    obtain ⟨rfl, rfl⟩ := h9
  · rw [show parse_spanish_date today ("lunes") = some (today +
      (if ((0 + 7 - pyWeekday today) % 7) = 0 then 7
        else ((0 + 7 - pyWeekday today) % 7))) from rfl] at hr
    cases hr
    exact weekday_delta_bounds today 0 (by omega)
  · rw [show parse_spanish_date today ("martes") = some (today +
      (if ((1 + 7 - pyWeekday today) % 7) = 0 then 7
        else ((1 + 7 - pyWeekday today) % 7))) from rfl] at hr
    cases hr
    exact weekday_delta_bounds today 1 (by omega)
  · rw [show parse_spanish_date today ("miércoles") = some (today +
      (if ((2 + 7 - pyWeekday today) % 7) = 0 then 7
        else ((2 + 7 - pyWeekday today) % 7))) from rfl] at hr
    cases hr
    exact weekday_delta_bounds today 2 (by omega)
  · rw [show parse_spanish_date today ("miercoles") = some (today +
      (if ((2 + 7 - pyWeekday today) % 7) = 0 then 7
        else ((2 + 7 - pyWeekday today) % 7))) from rfl] at hr
    cases hr
    exact weekday_delta_bounds today 2 (by omega)
  · rw [show parse_spanish_date today ("jueves") = some (today +
      (if ((3 + 7 - pyWeekday today) % 7) = 0 then 7
        else ((3 + 7 - pyWeekday today) % 7))) from rfl] at hr
    cases hr
    exact weekday_delta_bounds today 3 (by omega)
  · rw [show parse_spanish_date today ("viernes") = some (today +
      (if ((4 + 7 - pyWeekday today) % 7) = 0 then 7
        else ((4 + 7 - pyWeekday today) % 7))) from rfl] at hr
    cases hr
    exact weekday_delta_bounds today 4 (by omega)
  · rw [show parse_spanish_date today ("sábado") = some (today +
      (if ((5 + 7 - pyWeekday today) % 7) = 0 then 7
        else ((5 + 7 - pyWeekday today) % 7))) from rfl] at hr
    cases hr
    exact weekday_delta_bounds today 5 (by omega)
  · rw [show parse_spanish_date today ("sabado") = some (today +
      (if ((5 + 7 - pyWeekday today) % 7) = 0 then 7
        else ((5 + 7 - pyWeekday today) % 7))) from rfl] at hr
    cases hr
    exact weekday_delta_bounds today 5 (by omega)
  · rw [show parse_spanish_date today ("domingo") = some (today +
      (if ((6 + 7 - pyWeekday today) % 7) = 0 then 7
        else ((6 + 7 - pyWeekday today) % 7))) from rfl] at hr
    cases hr
    exact weekday_delta_bounds today 6 (by omega)

/-- Closed instance of `C6_parse_date_behaviour`: "viernes" on the Monday
2024-06-10 yields a strictly later day, at most a week ahead, that is a
Friday. -/
theorem C6_parse_date_behaviour_witness :
    19884 < 19888 ∧ 19888 ≤ 19884 + 7 ∧ pyWeekday 19888 = 4 :=
  C6_parse_date_behaviour.2.2.2.1 19884 19888 ("viernes") 4 (by decide) (by decide)

/-! ### Spanish time parsing -/

/-- C7: `ParseTime` recognizes, in priority order, explicit `HH:MM`
(validated 0–23 / 0–59, an invalid first match falling through), `a la(s) N`
with an am/pm or "de la tarde/noche/mañana" cue anywhere in the text (pm
adds 12 to hours 1–11, "12 pm" stays 12, "12 am" becomes 0, minutes default
to 0), then bare `N am` / `N pm`, and returns none otherwise — including
the spec examples and the whole pm family `a las N de la tarde` for
N = 1..11. -/
theorem C7_parse_time_behaviour :
    parse_spanish_time ("14:30") = some (14, 30) ∧
    parse_spanish_time ("a las 2 de la tarde") = some (14, 0) ∧
    parse_spanish_time ("9 am") = some (9, 0) ∧
    parse_spanish_time ("mañana") = none ∧
    parse_spanish_time ("12 pm") = some (12, 0) ∧
    parse_spanish_time ("12 am") = some (0, 0) ∧
    parse_spanish_time ("a las 2 pm 10:15") = some (10, 15) ∧
    parse_spanish_time ("25:70 a las 3 de la tarde") = some (15, 0) ∧
    (∀ h, 1 ≤ h → h ≤ 11 →
      parse_spanish_time (("a las ") ++ (toString h) ++ (" de la tarde")) =
        some (h + 12, 0)) := by
  refine ⟨?_, ?_, ?_, ?_, ?_, ?_, ?_, ?_, fun h h1 h2 => ?_⟩ <;>
    first
    | decide
    | (interval_cases h <;> decide)

/-- Closed instance of `C7_parse_time_behaviour`: "a las 3 de la tarde"
parses to 15:00. -/
theorem C7_parse_time_behaviour_witness :
    parse_spanish_time (("a las ") ++ (toString 3) ++ (" de la tarde")) = some (3 + 12, 0) :=
  C7_parse_time_behaviour.2.2.2.2.2.2.2.2 3 (by norm_num) (by norm_num)

/-! ### FAQ scorer -/

theorem argmaxFirst_cons_none (sc : FAQEntry → ℚ) (f : FAQEntry) (fs : List FAQEntry)
    (h : argmaxFirst sc fs = none) : argmaxFirst sc (f :: fs) = some f := by
  show (match argmaxFirst sc fs with
    | none => some f
    | some g => if sc f < sc g then some g else some f) = some f
  rw [h]

theorem argmaxFirst_cons_some (sc : FAQEntry → ℚ) (f g : FAQEntry) (fs : List FAQEntry)
    (h : argmaxFirst sc fs = some g) :
    argmaxFirst sc (f :: fs) = if sc f < sc g then some g else some f := by
  show (match argmaxFirst sc fs with
    | none => some f
    | some g => if sc f < sc g then some g else some f) = _
  rw [h]

theorem bestLoop_spec (sim : String → String → ℚ) (tokens : List String) (text : String)
    (l : List FAQEntry) : ∀ (b₀ : Option FAQEntry) (s₀ : ℚ),
    bestLoop sim tokens text l (b₀, s₀) =
      (argmaxFirst (faqScore sim tokens text) l).elim (b₀, s₀)
        (fun g => if s₀ < faqScore sim tokens text g then
          (some g, faqScore sim tokens text g) else (b₀, s₀)) := by
  induction l with
  | nil => intro b₀ s₀; rfl
  | cons f fs ih =>
    intro b₀ s₀
    show (if s₀ < faqScore sim tokens text f then
        bestLoop sim tokens text fs (some f, faqScore sim tokens text f)
      else bestLoop sim tokens text fs (b₀, s₀)) = _
    rcases hfs : argmaxFirst (faqScore sim tokens text) fs with _ | g
    · rw [argmaxFirst_cons_none _ _ _ hfs, Option.elim_some]
      by_cases hc : s₀ < faqScore sim tokens text f
      · rw [if_pos hc, if_pos hc, ih, hfs, Option.elim_none]
      · rw [if_neg hc, if_neg hc, ih, hfs, Option.elim_none]
    · rw [argmaxFirst_cons_some _ _ _ _ hfs]
      by_cases hfg : faqScore sim tokens text f < faqScore sim tokens text g
      · rw [if_pos hfg, Option.elim_some]
        by_cases hc : s₀ < faqScore sim tokens text f
        · rw [if_pos hc, ih, hfs, Option.elim_some, if_pos hfg, if_pos (by linarith)]
        · rw [if_neg hc, ih, hfs, Option.elim_some]
      · rw [if_neg hfg, Option.elim_some]
        by_cases hc : s₀ < faqScore sim tokens text f
        · rw [if_pos hc, if_pos hc, ih, hfs, Option.elim_some, if_neg (by linarith)]
        · rw [if_neg hc, if_neg hc, ih, hfs, Option.elim_some, if_neg (by linarith)]

/-- C9: `best_faq_answer` implements exactly the spec's `BestMatch`
algorithm (§4.5): same tokenization with the empty-token early return, the
first maximum of `2·question-overlap + answer-overlap + 3·fuzzy` over the
active entries, accepted iff the total reaches 3.0 or the query/question
similarity reaches 0.35.  The difflib ratio is abstracted by any
non-negative rational similarity `sim`. -/
theorem C9_best_faq_matches_spec (sim : String → String → ℚ) (faqs : List FAQEntry)
    (query_text : String) (hsim : ∀ a b, 0 ≤ sim a b) :
    best_faq_answer sim faqs query_text = bestMatchSpec sim faqs query_text := by
  simp only [best_faq_answer, bestMatchSpec]
  by_cases hq : query_text = ("")
  · rw [if_pos hq]
    subst hq
    rfl
  · rw [if_neg hq]
    by_cases ht : (queryTokens (pyLower query_text)).isEmpty
    · rw [if_pos ht, if_pos ht]
    · rw [if_neg ht, if_neg ht, bestLoop_spec]
      rcases hmax : argmaxFirst (faqScore sim (queryTokens (pyLower query_text))
          (pyLower query_text)) (faqs.filter (fun f => f.is_active)) with _ | g
      · rw [Option.elim_none]
      · rw [Option.elim_some]
        by_cases hpos : (0 : ℚ) <
            faqScore sim (queryTokens (pyLower query_text)) (pyLower query_text) g
        · rw [if_pos hpos]
        · rw [if_neg hpos]
          have hval : faqScore sim (queryTokens (pyLower query_text)) (pyLower query_text) g =
              ((interCard (queryTokens (pyLower query_text)) (pySplit (pyLower g.question)) * 2 +
                interCard (queryTokens (pyLower query_text)) (pySplit (pyLower g.answer)) : Nat) : ℚ) +
              3 * max (sim (pyLower query_text) (pyLower g.question))
                (sim (pyLower query_text) (pyLower g.answer)) := rfl
          have h0 : (0 : ℚ) ≤ ((interCard (queryTokens (pyLower query_text))
              (pySplit (pyLower g.question)) * 2 +
              interCard (queryTokens (pyLower query_text)) (pySplit (pyLower g.answer)) : Nat) : ℚ) :=
            Nat.cast_nonneg _
          have h1 := hsim (pyLower query_text) (pyLower g.question)
          have h2 := hsim (pyLower query_text) (pyLower g.answer)
          have h3 : sim (pyLower query_text) (pyLower g.question) ≤
              max (sim (pyLower query_text) (pyLower g.question))
                (sim (pyLower query_text) (pyLower g.answer)) := le_max_left _ _
          have h4 : (0 : ℚ) ≤ max (sim (pyLower query_text) (pyLower g.question))
              (sim (pyLower query_text) (pyLower g.answer)) := le_trans h1 h3
          show _ = (if 3 ≤ faqScore sim (queryTokens (pyLower query_text))
              (pyLower query_text) g ∨
              (7 / 20 : ℚ) ≤ sim (pyLower query_text) (pyLower g.question) then some g
            else none)
          rw [if_neg ?hrej]
          case hrej =>
            push_neg
            constructor
            · rw [hval] at hpos ⊢
              nlinarith
            · rw [hval] at hpos
              nlinarith

/-- Closed instance of `C9_best_faq_matches_spec` with the zero similarity,
one active entry and a concrete query. -/
theorem C9_best_faq_matches_spec_witness :
    best_faq_answer (fun _ _ => 0)
        [{ question := "como pago", answer := "con transferencia", is_active := true }]
        ("como puedo pagar") =
      bestMatchSpec (fun _ _ => 0)
        [{ question := "como pago", answer := "con transferencia", is_active := true }]
        ("como puedo pagar") :=
  C9_best_faq_matches_spec (fun _ _ => 0) _ _ (fun _ _ => le_refl 0)

/-! ### Menu routing -/

/-- C3 as stated fails on the code: in the `Menu` state the text
"quiero agendar para el viernes a las 2pm" matches the scheduling keyword
`agendar`, so `handle_menu` delegates to `schedule_appointment`, which
offers the 14-day date list and returns `SELECT_DATE`; no date/time is
parsed, no slot is staged, and the state is not `COLLECT_EMAIL`. -/
theorem C3_menu_text_goes_to_select_date :
    handle_menu { sim := fun _ _ => 0, faqs := [] }
        ("quiero agendar para el viernes a las 2pm") =
      (RState.SELECT_DATE, none) ∧
    RState.SELECT_DATE ≠ RState.COLLECT_EMAIL := by
  exact ⟨rfl, by decide⟩

/-- C3 amended: for a user in `Menu` who sends
"quiero agendar para el viernes a las 2pm" as a text message, the system
recognizes the scheduling intent, offers the date list and transitions to
`SelectDate` without resolving the date or time and without staging a slot
(for any FAQ table and similarity function); the direct date/time
resolution lives only in the voice-transcript pipeline. -/
theorem C3_amended_menu_offers_date_list (sim : String → String → ℚ)
    (faqs : List FAQEntry) :
    handle_menu { sim := sim, faqs := faqs }
        ("quiero agendar para el viernes a las 2pm") = (RState.SELECT_DATE, none) := rfl

/-! ### Booking commit paths -/

/-- C2: on each booking-commit path — button confirmation
(`save_appointment`), voice confirmation and voice auto-booking
(`handle_voice_message`), and email-collection completion
(`handle_email_input`) — availability of `[t, t + 30)` is re-validated
immediately before the insert: the insert happens exactly when the re-check
passes, and on failure nothing is inserted, a conflict message is shown
(the button path surfaces it through its generic failure text), and the
conversation returns to a live state (`HANDLE_MENU`, or the day's slot list
on the voice auto path). -/
theorem C2_commit_paths_revalidate (store : List Appointment) (users : List UserRec)
    (u : UserRec) (e etext0 : String) (tid d t bs be : Nat)
    (hEmail : u.email = some e)
    (hFind : users.find? (fun w => w.telegram_id == tid) = some u)
    (hValid : valid_email (pyStrip etext0) = true) :
    ((is_slot_available store t (t + 30) = false →
      save_appointment ("confirm_appt") (some u) (some d) (some t) store =
        { store := store, ret := RState.HANDLE_MENU, message := saveApptErrorMsg }) ∧
     (is_slot_available store t (t + 30) = true →
      save_appointment ("confirm_appt") (some u) (some d) (some t) store =
        { store := store ++ [mkAppt u.id t], ret := RState.HANDLE_MENU,
          message := saveApptOkMsg })) ∧
    ((is_slot_available store t (t + 30) = false →
      handle_email_input users store tid (some t) etext0 =
        { users := set_email users tid (pyStrip etext0), store := store,
          ret := RState.HANDLE_MENU, message := emailConflictMsg }) ∧
     (is_slot_available store t (t + 30) = true →
      handle_email_input users store tid (some t) etext0 =
        { users := set_email users tid (pyStrip etext0), store := store ++ [mkAppt u.id t],
          ret := RState.HANDLE_MENU, message := saveApptOkMsg })) ∧
    ((is_slot_available store t (t + 30) = false →
      voice_confirm_commit (some u) (some t) store =
        { store := store, ret := RState.HANDLE_MENU, message := voiceConflictMsg }) ∧
     (is_slot_available store t (t + 30) = true →
      voice_confirm_commit (some u) (some t) store =
        { store := store ++ [mkAppt u.id t], ret := RState.HANDLE_MENU,
          message := saveApptOkMsg })) ∧
    ((is_slot_available store t (t + 30) = false →
      voice_auto_book bs be u t d store =
        { store := store,
          ret := if (get_available_slots_from_db bs be store d).isEmpty then
            RState.SELECT_DATE else RState.SELECT_TIME,
          message := voiceAutoConflictMsg }) ∧
     (is_slot_available store t (t + 30) = true →
      voice_auto_book bs be u t d store =
        { store := store ++ [mkAppt u.id t], ret := RState.HANDLE_MENU,
          message := saveApptOkMsg })) := by
  refine ⟨⟨?_, ?_⟩, ⟨?_, ?_⟩, ⟨?_, ?_⟩, ⟨?_, ?_⟩⟩ <;> intro hav <;>
    simp [save_appointment, handle_email_input, voice_confirm_commit, voice_auto_book,
      hEmail, hFind, hValid, hav]

/-- Closed instance of `C2_commit_paths_revalidate`: the button-confirmation
path with a taken 09:00 slot inserts nothing and shows the failure text. -/
theorem C2_commit_paths_revalidate_witness :
    save_appointment ("confirm_appt")
        (some { id := 5, telegram_id := 7, email := some ("a@b.co") }) (some 0) (some 540)
        [mkAppt 1 540] =
      { store := [mkAppt 1 540], ret := RState.HANDLE_MENU,
        message := saveApptErrorMsg } :=
  (C2_commit_paths_revalidate [mkAppt 1 540]
      [{ id := 5, telegram_id := 7, email := some ("a@b.co") }]
      { id := 5, telegram_id := 7, email := some ("a@b.co") }
      ("a@b.co") ("a@b.co") 7 0 540 8 17 rfl (by decide) (by decide)).1.1 (by decide)

theorem find?_cons_pos {α : Type} (p : α → Bool) (w : α) (rest : List α)
    (hw : p w = true) : (w :: rest).find? p = some w := by
  rw [List.find?_cons, hw]

theorem find?_cons_neg {α : Type} (p : α → Bool) (w : α) (rest : List α)
    (hw : p w = false) : (w :: rest).find? p = rest.find? p := by
  rw [List.find?_cons, hw]

theorem find?_set_email (users : List UserRec) (tid : Nat) (em : String) (u : UserRec)
    (h : users.find? (fun w => w.telegram_id == tid) = some u) :
    (set_email users tid em).find? (fun w => w.telegram_id == tid) =
      some { u with email := some em } := by
  induction users with
  | nil => cases h
  | cons w rest ih =>
    cases hw : (w.telegram_id == tid) with
    | true =>
      rw [find?_cons_pos (fun v : UserRec => v.telegram_id == tid) w rest hw] at h
      injection h with h
      subst h
      show ((if w.telegram_id == tid then { w with email := some em } :: rest
        else w :: set_email rest tid em).find? (fun v => v.telegram_id == tid)) = _
      rw [if_pos hw, find?_cons_pos (fun v : UserRec => v.telegram_id == tid)
        { w with email := some em } rest hw]
    | false =>
      rw [find?_cons_neg (fun v : UserRec => v.telegram_id == tid) w rest hw] at h
      show ((if w.telegram_id == tid then { w with email := some em } :: rest
        else w :: set_email rest tid em).find? (fun v => v.telegram_id == tid)) = _
      rw [if_neg (by simp [hw]), find?_cons_neg (fun v : UserRec => v.telegram_id == tid) w (set_email rest tid em) hw]
      exact ih h

/-- C10: in `CollectEmail`, a syntactically valid email is committed to the
user record before the availability re-check, so when the staged slot is no
longer free the email update persists while no appointment is inserted and
the conflict message is shown; an invalid email leaves both the user table
and the appointment store unchanged and re-prompts in `COLLECT_EMAIL`. -/
theorem C10_email_persists_on_conflict (users : List UserRec) (store : List Appointment)
    (tid t : Nat) (etext0 : String) (u : UserRec)
    (hFind : users.find? (fun w => w.telegram_id == tid) = some u) :
    (valid_email (pyStrip etext0) = true →
      is_slot_available store t (t + 30) = false →
      handle_email_input users store tid (some t) etext0 =
        { users := set_email users tid (pyStrip etext0), store := store,
          ret := RState.HANDLE_MENU, message := emailConflictMsg } ∧
      (set_email users tid (pyStrip etext0)).find? (fun w => w.telegram_id == tid) =
        some { u with email := some (pyStrip etext0) }) ∧
    (valid_email (pyStrip etext0) = false →
      handle_email_input users store tid (some t) etext0 =
        { users := users, store := store, ret := RState.COLLECT_EMAIL,
          message := invalidEmailMsg }) := by
  constructor
  · intro hValid hav
    constructor
    · simp [handle_email_input, hValid, hFind, hav]
    · exact find?_set_email users tid (pyStrip etext0) u hFind
  · intro hInvalid
    simp [handle_email_input, hInvalid]

/-- Closed instance of `C10_email_persists_on_conflict`: a valid email with
a taken slot persists the email and inserts nothing. -/
theorem C10_email_persists_on_conflict_witness :
    handle_email_input [{ id := 5, telegram_id := 7, email := none }] [mkAppt 1 540]
        7 (some 540) ("a@b.co") =
      { users := set_email [{ id := 5, telegram_id := 7, email := none }] 7
          (pyStrip ("a@b.co")), store := [mkAppt 1 540],
        ret := RState.HANDLE_MENU, message := emailConflictMsg } :=
  ((C10_email_persists_on_conflict [{ id := 5, telegram_id := 7, email := none }]
      [mkAppt 1 540] 7 540 ("a@b.co") { id := 5, telegram_id := 7, email := none }
      (by decide)).1 (by decide) (by decide)).1

/-! ### The booking race -/

/-- C1 fails on the code: with two concurrent commits for the same 09:00
slot of day 0 over an empty store, the interleaving
check-A, check-B, insert-A, insert-B lets both availability reads see the
empty store, so both callers insert and report success — two confirmed
appointments for overlapping ranges persist (the final conjunct shows the
inserted ranges do overlap under the code's own rule).  Nothing in
`save_appointment` serializes the SELECT of `is_slot_available` with the
INSERT (`concurrent_updates(True)`, no transaction isolation around
check-plus-insert, no lock, no slot uniqueness constraint), exactly the
checked-then-written pattern the spec rules out. -/
theorem C1_overlapping_commits_both_succeed :
    (runSchedule [true, false, true, false] raceInit).a.res = some CommitResult.success ∧
    (runSchedule [true, false, true, false] raceInit).b.res = some CommitResult.success ∧
    (runSchedule [true, false, true, false] raceInit).store =
      [mkAppt 1 540, mkAppt 2 540] ∧
    is_slot_available [mkAppt 1 540] 540 570 = false := by decide

end ChatBot
